import Mathlib

/-!
Shallow embedding of `tf2rl/algos/vail.py` (classes `Discriminator` and `VAIL`).

Tensors are embedded as lists of reals: a rank-1 tensor is a `Vec`, a rank-2
tensor (a batch of rows) is a `Mat`.  Float32 arithmetic is modelled by exact
real arithmetic.  The stochastic draw `tf.random.normal(shape=means.shape)`
made inside `Discriminator.call` is made explicit: the noise matrix is an
argument of the embedded `Discriminator.call`, while `compute_reward` and the
inference path take no noise argument, exactly as in the source, where they
never invoke the random generator.

Automatic differentiation and the Adam optimizer are outside the scope of the
source file (they live in TensorFlow); the parameter update performed by
`self.optimizer.apply_gradients` is therefore modelled by an abstract update
function `opt : Discriminator → Discriminator` supplied to the training step.
Everything else in `_train_body` (both forward passes, the adversarial loss,
the KL terms, the dual-ascent update of the regularization parameter β and the
accuracy diagnostic) is embedded directly from the source.
-/

noncomputable section

abbrev Vec := List ℝ

abbrev Mat := List Vec

/-- Dot product of two rows, used by the dense layers. -/
def dot (w x : Vec) : ℝ := (List.zipWith (fun a b => a * b) w x).sum

/-- One dense layer: one weight row and one bias entry per output unit.
(The TF kernel is stored input-major; this embedding stores it output-major,
which represents the same affine map.) -/
structure DenseLayer where
  weights : List Vec
  bias : Vec

/-- Affine part of a dense layer applied to one input row. -/
def DenseLayer.applyRow (L : DenseLayer) (x : Vec) : Vec :=
  List.zipWith (fun w b => dot w x + b) L.weights L.bias

/-- Number of output units a dense layer actually produces. -/
def headWidth (L : DenseLayer) : ℕ := min L.weights.length L.bias.length

def relu (x : ℝ) : ℝ := max x 0

def sigmoid (x : ℝ) : ℝ := 1 / (1 + Real.exp (-x))

/-- `tf.clip_by_value x lo hi`. -/
def clip (lo hi x : ℝ) : ℝ := min (max x lo) hi

def LOG_SIG_CAP_MAX : ℝ := 2

def LOG_SIG_CAP_MIN : ℝ := -20

/-- The five dense layers owned by the discriminator (`L1`, `L2`, `L_mean`,
`L_std`, `L3` in the source).  Spectral normalization only changes how the
layers are trained, not the shape of the forward map, so a layer is just its
current weights. -/
structure Discriminator where
  l1 : DenseLayer
  l2 : DenseLayer
  l_mean : DenseLayer
  l_logstd : DenseLayer
  l3 : DenseLayer

/-- `tf.concat(inputs, axis=1)` for two batches with matching leading
dimension (the leading-dimension check itself is performed by the callers
below, mirroring the error TF raises on mismatch). -/
def concatB (s a : Mat) : Mat := List.zipWith (fun x y => x ++ y) s a

def zipWith3 (f : α → β → γ → δ) : List α → List β → List γ → List δ
  | a :: as, b :: bs, c :: cs => f a b c :: zipWith3 f as bs cs
  | _, _, _ => []

/-- Shared trunk of the forward pass: concat, then `l1` and `l2`, both with
relu activation. -/
def disc_features (D : Discriminator) (s a : Mat) : Mat :=
  (concatB s a).map fun r => (D.l2.applyRow ((D.l1.applyRow r).map relu)).map relu

/-- Latent mean head (`l_mean`, linear activation). -/
def disc_means (D : Discriminator) (s a : Mat) : Mat :=
  (disc_features D s a).map D.l_mean.applyRow

/-- Latent log-std head (`l_logstd`, linear activation) followed by
`tf.clip_by_value(logstds, LOG_SIG_CAP_MIN, LOG_SIG_CAP_MAX)`. -/
def disc_logstds (D : Discriminator) (s a : Mat) : Mat :=
  (disc_features D s a).map fun r =>
    (D.l_logstd.applyRow r).map (clip LOG_SIG_CAP_MIN LOG_SIG_CAP_MAX)

/-- Reparameterized latent sample: `means + noise * exp(logstds)`. -/
def disc_latents (D : Discriminator) (noise : Mat) (s a : Mat) : Mat :=
  zipWith3 (fun mr nr lr => zipWith3 (fun m n l => m + n * Real.exp l) mr nr lr)
    (disc_means D s a) noise (disc_logstds D s a)

/-- Output head `l3` (sigmoid activation) applied to the sampled latents. -/
def disc_probs (D : Discriminator) (noise : Mat) (s a : Mat) : Mat :=
  (disc_latents D noise s a).map fun r => (D.l3.applyRow r).map sigmoid

/-- `Discriminator.call`.  `noise` is the fresh standard-normal draw of
`means.shape` that the source obtains from `tf.random.normal`.  The
leading-dimension agreement between states and actions is checked up front:
`tf.concat(..., axis=1)` raises an InvalidArgument error when the batch sizes
differ, embedded here as `none`. -/
def Discriminator.call (D : Discriminator) (noise : Mat) (s a : Mat) :
    Option (Mat × Mat × Mat) :=
  if s.length = a.length then
    some (disc_probs D noise s a, disc_means D s a, disc_logstds D s a)
  else none

/-- `Discriminator.compute_reward`: the noise-free path that feeds the mean
latent straight into the output head. -/
def Discriminator.compute_reward (D : Discriminator) (s a : Mat) : Option Mat :=
  if s.length = a.length then
    some ((disc_means D s a).map fun r => (D.l3.applyRow r).map sigmoid)
  else none

/-- `tf.reduce_mean` over a rank-1 tensor. -/
def mean (xs : Vec) : ℝ := xs.sum / xs.length

/-- Flattening a rank-2 tensor, so that `tf.reduce_mean` over all entries is
`mean (flat m)`. -/
def flat (m : Mat) : Vec := m.foldr (fun r acc => r ++ acc) []

/-- `VAIL._compute_kl` for one sample: the sum over the latent dimensions of
`-log_std + (means² + exp(log_std)² - 1) / 2` (`tf.reduce_sum(..., axis=-1)`). -/
def compute_kl (means log_stds : Vec) : ℝ :=
  (List.zipWith (fun m l => -l + (m ^ 2 + Real.exp l ^ 2 - 1) / 2) means log_stds).sum

/-- `VAIL._compute_kl` on a whole batch: one scalar per sample. -/
def compute_kl_batch (means log_stds : Mat) : Vec :=
  List.zipWith compute_kl means log_stds

/-- `VAIL._step_reg_param = tf.constant(1e-5)`. -/
def step_reg_param : ℝ := 1e-5

/-- The `epsilon = 1e-8` guard used in `_train_body` and `_inference_body`. -/
def train_epsilon : ℝ := 1e-8

/-- The dual-ascent assignment of `_train_body`:
`reg_param ← max(0, reg_param + step_reg_param * (kl_loss - kl_target))`. -/
def dual_update (kl_target beta kl_loss : ℝ) : ℝ :=
  max 0 (beta + step_reg_param * (kl_loss - kl_target))

/-- The mutable state of a `VAIL` object that a training step touches: the
discriminator parameters and the regularization coefficient β
(`self._reg_param`). -/
structure VAILState where
  disc : Discriminator
  reg_param : ℝ

/-- The four diagnostics `_train_body` returns. -/
structure TrainOutput where
  loss : ℝ
  accuracy : ℝ
  real_kl : ℝ
  fake_kl : ℝ

/-- The value the source binds to `kl_loss`, as a function of the (pre-step)
discriminator parameters and the four input batches:
`0.5 * (mean real_kl - kl_target + mean fake_kl - kl_target)` where the real
branch is the expert batch and the fake branch the agent batch. -/
def kl_loss_of (kl_target : ℝ) (D : Discriminator)
    (agent_states agent_acts expert_states expert_acts : Mat) : ℝ :=
  0.5 * (mean (compute_kl_batch (disc_means D expert_states expert_acts)
                (disc_logstds D expert_states expert_acts)) - kl_target
       + mean (compute_kl_batch (disc_means D agent_states agent_acts)
                (disc_logstds D agent_states agent_acts)) - kl_target)

/-- `VAIL._train_body`.  `noiseR` and `noiseF` are the two fresh normal draws
of the two discriminator calls; `opt` abstracts
`optimizer.apply_gradients(zip(grads, trainable_variables))`, the only
parameter mutation.  The returned state holds the post-step parameters and the
post-assignment β; the returned output holds the four reported diagnostics.
A shape error inside either forward pass aborts the step (`none`), leaving the
state untouched. -/
def train_body (kl_target : ℝ) (opt : Discriminator → Discriminator)
    (st : VAILState) (noiseR noiseF : Mat)
    (agent_states agent_acts expert_states expert_acts : Mat) :
    Option (VAILState × TrainOutput) :=
  match st.disc.call noiseR expert_states expert_acts,
        st.disc.call noiseF agent_states agent_acts with
  | some (real_logits, real_means, real_logstds),
    some (fake_logits, fake_means, fake_logstds) =>
    let disc_loss :=
      -(mean ((flat real_logits).map fun p => Real.log (p + train_epsilon))
        + mean ((flat fake_logits).map fun p => Real.log (1 - p + train_epsilon)))
    let real_kl := compute_kl_batch real_means real_logstds
    let fake_kl := compute_kl_batch fake_means fake_logstds
    let kl_loss := 0.5 * (mean real_kl - kl_target + mean fake_kl - kl_target)
    let loss := disc_loss + st.reg_param * kl_loss
    let accuracy :=
      mean ((flat real_logits).map fun p => if 0.5 ≤ p then (1 : ℝ) else 0) / 2
      + mean ((flat fake_logits).map fun p => if p < 0.5 then (1 : ℝ) else 0) / 2
    some (⟨opt st.disc, dual_update kl_target st.reg_param kl_loss⟩,
          ⟨loss, accuracy, mean real_kl, mean fake_kl⟩)
  | _, _ => none

/-- A numpy array of rank 1 or rank 2, as handled by `VAIL.inference`. -/
inductive Arr where
  | r1 (v : Vec)
  | r2 (m : Mat)

def Arr.ndim : Arr → ℕ
  | .r1 _ => 1
  | .r2 _ => 2

/-- Feeding an array to an axis-1 tensor operation: only rank-2 input is
usable there. -/
def Arr.toMat : Arr → Option Mat
  | .r1 _ => none
  | .r2 m => some m

/-- `VAIL._inference_body`: `log(compute_reward([states, actions]) + 1e-8)`,
elementwise on the returned batch. -/
def inference_body (D : Discriminator) (states actions : Mat) : Option Arr :=
  (D.compute_reward states actions).map fun m =>
    Arr.r2 (m.map (List.map fun p => Real.log (p + train_epsilon)))

/-- `VAIL.inference`: when both inputs have `ndim == 1` they are promoted with
`np.expand_dims(-, axis=0)` before `_inference_body`; otherwise they are passed
through unchanged. -/
def inference (D : Discriminator) (states actions : Arr) : Option Arr :=
  match states, actions with
  | .r1 s, .r1 a => inference_body D [s] [a]
  | s, a => s.toMat.bind fun sm => a.toMat.bind fun am => inference_body D sm am

/-- One call to `VAIL.train`: the abstract optimizer step, the two noise draws
and the four input batches. -/
structure StepInput where
  opt : Discriminator → Discriminator
  noiseR : Mat
  noiseF : Mat
  agent_states : Mat
  agent_acts : Mat
  expert_states : Mat
  expert_acts : Mat

/-- Effect of one `train` call on the VAIL state: on success the new state is
adopted, a shape error propagates out of the call before either mutation
happens, leaving the state unchanged. -/
def apply_step (kl_target : ℝ) (st : VAILState) (inp : StepInput) : VAILState :=
  match train_body kl_target inp.opt st inp.noiseR inp.noiseF
      inp.agent_states inp.agent_acts inp.expert_states inp.expert_acts with
  | some (st2, _) => st2
  | none => st

/-- A sequence of training steps. -/
def run_steps (kl_target : ℝ) (st : VAILState) (steps : List StepInput) : VAILState :=
  steps.foldl (apply_step kl_target) st

/-- All-zero matrix of the same shape as a given one, for exercising the
noise-free latent path. -/
def zerosLike (m : Mat) : Mat := m.map (List.map fun _ => (0 : ℝ))

/-- A concrete discriminator over 1-dimensional states and actions, with one
unit per layer, chosen so every activation evaluates to a simple rational:
the features come out as `[1]`, the latent mean as `1`, the latent log-std as
`0`. -/
def discW : Discriminator :=
  ⟨⟨[[0, 0]], [1]⟩, ⟨[[1]], [0]⟩, ⟨[[1]], [0]⟩, ⟨[[0]], [0]⟩, ⟨[[0]], [0]⟩⟩

/-- A concrete training-step input for `discW`: batch-of-one zero states and
actions, zero noise, identity optimizer step. -/
def stepW : StepInput := ⟨id, [[0]], [[0]], [[0]], [[0]], [[0]], [[0]]⟩

lemma kl_term_nonneg (m l : ℝ) : 0 ≤ -l + (m ^ 2 + Real.exp l ^ 2 - 1) / 2 := by
  have h3 : Real.exp l ^ 2 = Real.exp (l + l) := by rw [pow_two, ← Real.exp_add]
  have h2 : l + l + 1 ≤ Real.exp (l + l) := by
    have := Real.add_one_le_exp (l + l)
    linarith
  have hm : 0 ≤ m ^ 2 := sq_nonneg m
  rw [h3]
  linarith

/-- C1: for every batch of per-sample mean vectors and log-std vectors,
`_compute_kl` returns one scalar per sample, equal to the sum over the latent
dimensions of `-log_std + (mean² + exp(log_std)² - 1) / 2`, and each summand
is the closed-form KL divergence `ln(1/σ) + (μ² + σ² - 1) / 2` of
`N(μ, σ²)` from `N(0, 1)` specialized to `σ = exp(log_std)`. -/
theorem c1_compute_kl_formula (means log_stds : Mat) :
    (compute_kl_batch means log_stds).length = min means.length log_stds.length
    ∧ compute_kl_batch means log_stds
        = List.zipWith (fun mr lr =>
            (List.zipWith (fun m l => -l + (m ^ 2 + Real.exp l ^ 2 - 1) / 2) mr lr).sum)
          means log_stds
    ∧ ∀ m l : ℝ, -l + (m ^ 2 + Real.exp l ^ 2 - 1) / 2
        = Real.log (1 / Real.exp l) + (m ^ 2 + Real.exp l ^ 2 - 1) / 2 := by
  refine ⟨List.length_zipWith _ _ _, rfl, fun m l => ?_⟩
  rw [one_div, Real.log_inv, Real.log_exp]

/-- C6: for every mean vector and every log-std vector, the per-sample value
returned by `_compute_kl` is non-negative. -/
theorem c6_kl_nonneg (means log_stds : Vec) : 0 ≤ compute_kl means log_stds := by
  induction means generalizing log_stds with
  | nil => simp [compute_kl]
  | cons m ms ih =>
    cases log_stds with
    | nil => simp [compute_kl]
    | cons l ls =>
      have h2 := ih ls
      have h1 := kl_term_nonneg m l
      simp only [compute_kl, List.zipWith_cons_cons, List.sum_cons] at h2 ⊢
      linarith

lemma clip_zero : clip LOG_SIG_CAP_MIN LOG_SIG_CAP_MAX 0 = 0 := by
  unfold clip LOG_SIG_CAP_MIN LOG_SIG_CAP_MAX
  rw [max_eq_left (by norm_num), min_eq_left (by norm_num)]

lemma discW_features : disc_features discW [[0]] [[0]] = [[1]] := by
  simp [disc_features, concatB, DenseLayer.applyRow, dot, relu, discW]

lemma discW_means : disc_means discW [[0]] [[0]] = [[1]] := by
  unfold disc_means
  rw [discW_features]
  simp [DenseLayer.applyRow, dot, discW]

lemma discW_logstds : disc_logstds discW [[0]] [[0]] = [[0]] := by
  unfold disc_logstds
  rw [discW_features]
  simp [DenseLayer.applyRow, dot, discW, clip_zero]

lemma discW_klmean :
    mean (compute_kl_batch (disc_means discW [[0]] [[0]])
      (disc_logstds discW [[0]] [[0]])) = 1 / 2 := by
  rw [discW_means, discW_logstds]
  simp [compute_kl_batch, compute_kl, mean]

lemma train_body_some_reg (kl_target : ℝ) (opt : Discriminator → Discriminator)
    (st : VAILState) (noiseR noiseF agent_states agent_acts expert_states expert_acts : Mat)
    (r : VAILState × TrainOutput)
    (h : train_body kl_target opt st noiseR noiseF
        agent_states agent_acts expert_states expert_acts = some r) :
    r.1.reg_param = dual_update kl_target st.reg_param
      (kl_loss_of kl_target st.disc agent_states agent_acts expert_states expert_acts)
    ∧ r.1.disc = opt st.disc
    ∧ r.2.real_kl = mean (compute_kl_batch (disc_means st.disc expert_states expert_acts)
        (disc_logstds st.disc expert_states expert_acts))
    ∧ r.2.fake_kl = mean (compute_kl_batch (disc_means st.disc agent_states agent_acts)
        (disc_logstds st.disc agent_states agent_acts)) := by
  by_cases hE : expert_states.length = expert_acts.length
  · by_cases hA : agent_states.length = agent_acts.length
    · rw [train_body, Discriminator.call, if_pos hE, Discriminator.call, if_pos hA] at h
      simp only [Option.some.injEq] at h
      subst h
      refine ⟨?_, rfl, rfl, rfl⟩
      simp [kl_loss_of]
    · rw [train_body, Discriminator.call, if_pos hE, Discriminator.call, if_neg hA] at h
      exact absurd h (by simp)
  · rw [train_body, Discriminator.call, if_neg hE] at h
    exact absurd h (by simp)

lemma train_body_eq (kl_target : ℝ) (opt : Discriminator → Discriminator)
    (st : VAILState) (nR nF aS aA eS eA : Mat)
    (hE : eS.length = eA.length) (hA : aS.length = aA.length) :
    train_body kl_target opt st nR nF aS aA eS eA = some
      (⟨opt st.disc, dual_update kl_target st.reg_param (kl_loss_of kl_target st.disc aS aA eS eA)⟩,
       ⟨-(mean ((flat (disc_probs st.disc nR eS eA)).map fun p => Real.log (p + train_epsilon))
          + mean ((flat (disc_probs st.disc nF aS aA)).map fun p => Real.log (1 - p + train_epsilon)))
        + st.reg_param * kl_loss_of kl_target st.disc aS aA eS eA,
        mean ((flat (disc_probs st.disc nR eS eA)).map fun p => if 0.5 ≤ p then (1 : ℝ) else 0) / 2
        + mean ((flat (disc_probs st.disc nF aS aA)).map fun p => if p < 0.5 then (1 : ℝ) else 0) / 2,
        mean (compute_kl_batch (disc_means st.disc eS eA) (disc_logstds st.disc eS eA)),
        mean (compute_kl_batch (disc_means st.disc aS aA) (disc_logstds st.disc aS aA))⟩) := by
  unfold train_body Discriminator.call
  rw [if_pos hE, if_pos hA]
  rfl

/-- C2: one training step computes the adversarial loss
`disc_loss = -(mean(log(real_prob + 1e-8)) + mean(log(1 - fake_prob + 1e-8)))`,
the bottleneck term
`kl_loss_term = 0.5 * ((mean(real_kl) - kl_target) + (mean(fake_kl) - kl_target))`,
and the parameter update (the abstract optimizer step `opt`) is taken on the
state whose reported composite loss is `disc_loss + beta * kl_loss_term`. -/
theorem c2_train_losses (kl_target : ℝ) (opt : Discriminator → Discriminator)
    (st : VAILState) (nR nF aS aA eS eA : Mat)
    (hE : eS.length = eA.length) (hA : aS.length = aA.length) :
    (train_body kl_target opt st nR nF aS aA eS eA).map (fun r => r.2.loss)
      = some
        (-(mean ((flat (disc_probs st.disc nR eS eA)).map
              fun p => Real.log (p + train_epsilon))
          + mean ((flat (disc_probs st.disc nF aS aA)).map
              fun p => Real.log (1 - p + train_epsilon)))
         + st.reg_param *
            (0.5 * ((mean (compute_kl_batch (disc_means st.disc eS eA)
                      (disc_logstds st.disc eS eA)) - kl_target)
                  + (mean (compute_kl_batch (disc_means st.disc aS aA)
                      (disc_logstds st.disc aS aA)) - kl_target))))
    ∧ (train_body kl_target opt st nR nF aS aA eS eA).map (fun r => r.1.disc)
        = some (opt st.disc) := by
  rw [train_body_eq kl_target opt st nR nF aS aA eS eA hE hA]
  refine ⟨?_, rfl⟩
  rw [Option.map_some', Option.some.injEq]
  unfold kl_loss_of
  ring

/-- C2 witness: the theorem applied to the concrete one-unit discriminator
`discW` on batch-of-one zero inputs, both shape hypotheses holding by
computation. -/
theorem c2_witness :
    (train_body (1 / 2) id ⟨discW, 0⟩ [[0]] [[0]] [[0]] [[0]] [[0]] [[0]]).map
        (fun r => r.1.disc) = some discW :=
  (c2_train_losses (1 / 2) id ⟨discW, 0⟩ [[0]] [[0]] [[0]] [[0]] [[0]] [[0]] rfl rfl).2

/-- C3: on a training step that does not fail, β is updated exactly once, to
`max(0, β + 1e-5 * (kl_loss_term - kl_target))`, where `kl_loss_term` is
computed from the pre-step discriminator parameters (the β update, performed
after the optimizer's gradient application, uses the values computed before
that parameter update: the resulting β is the same for every optimizer step
function). -/
theorem c3_beta_dual_update (kl_target : ℝ) (opt : Discriminator → Discriminator)
    (st : VAILState) (nR nF aS aA eS eA : Mat)
    (hE : eS.length = eA.length) (hA : aS.length = aA.length) :
    (train_body kl_target opt st nR nF aS aA eS eA).map (fun r => r.1.reg_param)
      = some (max 0 (st.reg_param + step_reg_param *
          (kl_loss_of kl_target st.disc aS aA eS eA - kl_target)))
    ∧ ∀ opt2, (train_body kl_target opt2 st nR nF aS aA eS eA).map (fun r => r.1.reg_param)
        = (train_body kl_target opt st nR nF aS aA eS eA).map (fun r => r.1.reg_param) := by
  refine ⟨?_, fun opt2 => ?_⟩
  · rw [train_body_eq kl_target opt st nR nF aS aA eS eA hE hA]
    rfl
  · rw [train_body_eq kl_target opt st nR nF aS aA eS eA hE hA,
        train_body_eq kl_target opt2 st nR nF aS aA eS eA hE hA]
    rfl

/-- C3 witness: the β update formula instantiated on `discW` with batch-of-one
zero inputs and the identity optimizer step. -/
theorem c3_witness :
    (train_body (1 / 2) id ⟨discW, 0⟩ [[0]] [[0]] [[0]] [[0]] [[0]] [[0]]).map
        (fun r => r.1.reg_param)
      = some (max 0 (0 + step_reg_param *
          (kl_loss_of (1 / 2) discW [[0]] [[0]] [[0]] [[0]] - 1 / 2))) :=
  (c3_beta_dual_update (1 / 2) id ⟨discW, 0⟩ [[0]] [[0]] [[0]] [[0]] [[0]] [[0]] rfl rfl).1

lemma dual_update_nonneg (kl_target b k : ℝ) : 0 ≤ dual_update kl_target b k :=
  le_max_left 0 _

lemma apply_step_reg_nonneg (kl_target : ℝ) (st : VAILState) (inp : StepInput)
    (h : 0 ≤ st.reg_param) : 0 ≤ (apply_step kl_target st inp).reg_param := by
  unfold apply_step
  cases htb : train_body kl_target inp.opt st inp.noiseR inp.noiseF
      inp.agent_states inp.agent_acts inp.expert_states inp.expert_acts with
  | none => exact h
  | some r =>
    obtain ⟨st2, out⟩ := r
    have hr := (train_body_some_reg _ _ _ _ _ _ _ _ _ ⟨st2, out⟩ htb).1
    exact le_of_le_of_eq (dual_update_nonneg _ _ _) hr.symm

lemma run_steps_reg_nonneg (kl_target : ℝ) (steps : List StepInput) (st : VAILState)
    (h : 0 ≤ st.reg_param) : 0 ≤ (run_steps kl_target st steps).reg_param := by
  induction steps generalizing st with
  | nil => exact h
  | cons a as ih => exact ih (apply_step kl_target st a) (apply_step_reg_nonneg kl_target st a h)

/-- C4: for every initial β ≥ 0 and every sequence of training steps with
arbitrary input batches (arbitrary noise draws and arbitrary optimizer
updates), β is non-negative after every update: after every prefix of the
step sequence. -/
theorem c4_beta_nonneg (kl_target : ℝ) (st : VAILState) (steps : List StepInput)
    (h : 0 ≤ st.reg_param) :
    ∀ n : ℕ, 0 ≤ (run_steps kl_target st (steps.take n)).reg_param :=
  fun n => run_steps_reg_nonneg kl_target (steps.take n) st h

/-- C4 witness: one concrete training step on `discW` starting from β = 0. -/
theorem c4_witness :
    (0 : ℝ) ≤ 0 ∧ 0 ≤ (run_steps (1 / 2) ⟨discW, 0⟩ ([stepW].take 1)).reg_param :=
  ⟨le_refl 0, c4_beta_nonneg (1 / 2) ⟨discW, 0⟩ [stepW] (le_refl 0) 1⟩

lemma klW : kl_loss_of (1 / 2) discW [[0]] [[0]] [[0]] [[0]] = 0 := by
  unfold kl_loss_of
  rw [discW_klmean]
  norm_num

lemma trainW_realkl (beta : ℝ) :
    (train_body (1 / 2) id ⟨discW, beta⟩ [[0]] [[0]] [[0]] [[0]] [[0]] [[0]]).map
      (fun r => r.2.real_kl) = some (1 / 2) := by
  rw [train_body_eq _ _ _ _ _ _ _ _ _ rfl rfl]
  simp [discW_klmean]

lemma trainW_fakekl (beta : ℝ) :
    (train_body (1 / 2) id ⟨discW, beta⟩ [[0]] [[0]] [[0]] [[0]] [[0]] [[0]]).map
      (fun r => r.2.fake_kl) = some (1 / 2) := by
  rw [train_body_eq _ _ _ _ _ _ _ _ _ rfl rfl]
  simp [discW_klmean]

lemma trainW_reg (beta : ℝ) :
    (train_body (1 / 2) id ⟨discW, beta⟩ [[0]] [[0]] [[0]] [[0]] [[0]] [[0]]).map
      (fun r => r.1.reg_param) = some (max 0 (beta - 1 / 200000)) := by
  rw [train_body_eq _ _ _ _ _ _ _ _ _ rfl rfl, Option.map_some']
  show some (dual_update (1 / 2) beta (kl_loss_of (1 / 2) discW [[0]] [[0]] [[0]] [[0]]))
    = some (max 0 (beta - 1 / 200000))
  rw [klW]
  unfold dual_update step_reg_param
  congr 2
  norm_num
  ring

/-- C5 counterexample: at `kl_target = 0.5`, a concrete training step whose
mean real KL and mean fake KL are both exactly 0.5 changes β from 1 to
`1 - 5e-6`: the dual-ascent update term is `1e-5 * (0 - 0.5) = -5e-6` at the
target, not zero, because the code subtracts `kl_target` from `kl_loss` a
second time even though `kl_loss` already has the target subtracted. -/
theorem c5_counterexample :
    (train_body (1 / 2) id ⟨discW, 1⟩ [[0]] [[0]] [[0]] [[0]] [[0]] [[0]]).map
        (fun r => r.2.real_kl) = some (1 / 2)
    ∧ (train_body (1 / 2) id ⟨discW, 1⟩ [[0]] [[0]] [[0]] [[0]] [[0]] [[0]]).map
        (fun r => r.2.fake_kl) = some (1 / 2)
    ∧ (train_body (1 / 2) id ⟨discW, 1⟩ [[0]] [[0]] [[0]] [[0]] [[0]] [[0]]).map
        (fun r => r.1.reg_param) = some (1 - 1 / 200000)
    ∧ (1 - 1 / 200000 : ℝ) ≠ 1 := by
  refine ⟨trainW_realkl 1, trainW_fakekl 1, ?_, by norm_num⟩
  rw [trainW_reg 1, max_eq_right (by norm_num : (0 : ℝ) ≤ 1 - 1 / 200000)]

lemma max_zero_sub_collapse (x c : ℝ) (hc : 0 ≤ c) :
    max 0 (max 0 x - c) = max 0 (x - c) := by
  rcases le_total x 0 with h | h
  · rw [max_eq_left h, zero_sub,
      max_eq_left (by linarith : -c ≤ 0), max_eq_left (by linarith : x - c ≤ 0)]
  · rw [max_eq_right h]

lemma dual_iterate (n : ℕ) (b : ℝ) (hb : 0 ≤ b) :
    (fun x => dual_update (1 / 2) x 0)^[n] b = max 0 (b - n * (1 / 200000)) := by
  induction n with
  | zero => simp [max_eq_right hb]
  | succ n ih =>
    rw [Function.iterate_succ_apply', ih]
    have hstep : ∀ y : ℝ, dual_update (1 / 2) y 0 = max 0 (y - 1 / 200000) := by
      intro y
      unfold dual_update step_reg_param
      congr 1
      norm_num
      ring
    rw [hstep, max_zero_sub_collapse _ _ (by norm_num)]
    congr 1
    push_cast
    ring

/-- C5 (amended): with `kl_target = 0.5`, a training step whose mean real KL
and mean fake KL both equal exactly 0.5 does not leave β unchanged: the
dual-ascent update term is exactly `-5e-6`, so each step sets β to
`max(0, β - 5e-6)`, and 1000 such update steps starting from any β ≥ 0 end at
`max(0, β - 0.005)`; β remains unchanged at every step only from the initial
value β = 0. -/
theorem c5_at_target_amended :
    (∀ (opt : Discriminator → Discriminator) (st : VAILState) (nR nF aS aA eS eA : Mat)
        (st2 : VAILState) (out : TrainOutput),
        train_body (1 / 2) opt st nR nF aS aA eS eA = some (st2, out) →
        out.real_kl = 1 / 2 → out.fake_kl = 1 / 2 →
        st2.reg_param = max 0 (st.reg_param - 1 / 200000))
    ∧ ∀ b : ℝ, 0 ≤ b →
        (fun x => dual_update (1 / 2) x 0)^[1000] b = max 0 (b - 1 / 200) := by
  constructor
  · intro opt st nR nF aS aA eS eA st2 out h hrkl hfkl
    obtain ⟨hreg, _, hrk, hfk⟩ := train_body_some_reg _ _ _ _ _ _ _ _ _ (st2, out) h
    have hkl : kl_loss_of (1 / 2) st.disc aS aA eS eA = 0 := by
      unfold kl_loss_of
      rw [← hrk, ← hfk, hrkl, hfkl]
      norm_num
    have h2 : st2.reg_param
        = dual_update (1 / 2) st.reg_param (kl_loss_of (1 / 2) st.disc aS aA eS eA) := hreg
    rw [h2, hkl]
    unfold dual_update step_reg_param
    congr 1
    norm_num
    ring
  · intro b hb
    rw [dual_iterate 1000 b hb]
    norm_num

/-- C5 witness: the amended theorem applied to the concrete discriminator
`discW`, whose mean real and fake KL are exactly 0.5 on zero inputs; from
β = 0 the step keeps β at `max(0, 0 - 5e-6) = 0`, and the 1000-fold at-target
update from β = 0 is exercised as well. -/
theorem c5_witness :
    (train_body (1 / 2) id ⟨discW, 0⟩ [[0]] [[0]] [[0]] [[0]] [[0]] [[0]]).map
        (fun r => r.1.reg_param) = some (max 0 (0 - 1 / 200000))
    ∧ (fun x => dual_update (1 / 2) x 0)^[1000] 0 = max 0 (0 - 1 / 200) := by
  constructor
  · cases htb : train_body (1 / 2) id ⟨discW, 0⟩ [[0]] [[0]] [[0]] [[0]] [[0]] [[0]] with
    | none =>
      exact absurd htb (by rw [train_body_eq _ _ _ _ _ _ _ _ _ rfl rfl]; simp)
    | some r =>
      obtain ⟨st2, out⟩ := r
      have hrk : out.real_kl = 1 / 2 := by
        have h := trainW_realkl 0
        rw [htb] at h
        simpa using h
      have hfk : out.fake_kl = 1 / 2 := by
        have h := trainW_fakekl 0
        rw [htb] at h
        simpa using h
      have hmain := c5_at_target_amended.1 id ⟨discW, 0⟩ [[0]] [[0]] [[0]] [[0]] [[0]] [[0]]
        st2 out htb hrk hfk
      rw [Option.map_some']
      exact congrArg some hmain
  · exact c5_at_target_amended.2 0 (le_refl 0)

/-- C7 counterexample: `inference` on rank-1 inputs returns a rank-2
(batch-of-one) array, not a result in single-sample (rank-1) shape: the code
never squeezes the promoted batch dimension back out. -/
theorem c7_counterexample :
    (inference discW (Arr.r1 [0]) (Arr.r1 [0])).map Arr.ndim = some 2
    ∧ (2 : ℕ) ≠ 1 := by
  exact ⟨rfl, by decide⟩

/-- C7 (amended): when `inference` is called with rank-1 state and action
vectors it promotes them to a batch of one before the forward pass and
returns the batch-of-one (rank-2) result unchanged, without squeezing it back
to single-sample shape; the result is identical to calling `inference` with
the equivalent rank-2 batch-of-one inputs. -/
theorem c7_rank1_promotion_amended (D : Discriminator) (s a : Vec) :
    inference D (Arr.r1 s) (Arr.r1 a) = inference_body D [s] [a]
    ∧ inference D (Arr.r1 s) (Arr.r1 a) = inference D (Arr.r2 [s]) (Arr.r2 [a])
    ∧ (inference D (Arr.r1 s) (Arr.r1 a)).map Arr.ndim
        = (inference D (Arr.r1 s) (Arr.r1 a)).map (fun _ => 2) := by
  refine ⟨rfl, rfl, ?_⟩
  simp [inference, inference_body, Discriminator.compute_reward, Arr.ndim]

lemma applyRow_length (L : DenseLayer) (x : Vec) :
    (L.applyRow x).length = headWidth L := by
  unfold DenseLayer.applyRow headWidth
  exact List.length_zipWith _ _ _

lemma latents_zero_noise (mr lr : Vec) (h : mr.length ≤ lr.length) :
    zipWith3 (fun m n l => m + n * Real.exp l) mr (mr.map fun _ => (0 : ℝ)) lr = mr := by
  induction mr generalizing lr with
  | nil => rfl
  | cons m ms ih =>
    cases lr with
    | nil => simp at h
    | cons l ls =>
      simp only [List.map_cons, zipWith3, ih ls (by simpa using h)]
      norm_num

lemma disc_latents_zero (D : Discriminator) (s a : Mat)
    (hw : headWidth D.l_mean ≤ headWidth D.l_logstd) :
    disc_latents D (zerosLike (disc_means D s a)) s a = disc_means D s a := by
  unfold disc_latents zerosLike disc_means disc_logstds
  generalize disc_features D s a = fs
  induction fs with
  | nil => rfl
  | cons r rs ih =>
    simp only [List.map_cons, zipWith3]
    rw [latents_zero_noise _ _
        (by rw [applyRow_length, List.length_map, applyRow_length]; exact hw)]
    rw [List.cons_inj_right]
    exact ih

/-- C8: Reward Inference computes `log(compute_reward(state, action) + 1e-8)`
and is deterministic on the noise-free mean-latent path: `compute_reward`
coincides with the stochastic forward pass evaluated at zero noise (latent =
mean), and two `_inference_body` calls with identical discriminator
parameters and identical inputs yield identical outputs (the embedded
inference path consumes no noise source at all). -/
theorem c8_inference_deterministic (D : Discriminator) (s a : Mat)
    (hw : headWidth D.l_mean ≤ headWidth D.l_logstd) :
    inference_body D s a = (D.compute_reward s a).map (fun m =>
        Arr.r2 (m.map (List.map fun p => Real.log (p + train_epsilon))))
    ∧ (D.call (zerosLike (disc_means D s a)) s a).map (fun t => t.1)
        = D.compute_reward s a
    ∧ ∀ (D2 : Discriminator) (s2 a2 : Mat), D2 = D → s2 = s → a2 = a →
        inference_body D2 s2 a2 = inference_body D s a := by
  refine ⟨rfl, ?_, ?_⟩
  · unfold Discriminator.call Discriminator.compute_reward
    by_cases h : s.length = a.length
    · rw [if_pos h, if_pos h, Option.map_some']
      refine congrArg some ?_
      show disc_probs D (zerosLike (disc_means D s a)) s a = _
      unfold disc_probs
      rw [disc_latents_zero D s a hw]
    · rw [if_neg h, if_neg h]
      rfl
  · rintro D2 s2 a2 rfl rfl rfl
    rfl

/-- C8 witness: the theorem applied to the concrete discriminator `discW` on
a batch-of-one zero input, whose mean and log-std heads have the same width. -/
theorem c8_witness :
    headWidth discW.l_mean ≤ headWidth discW.l_logstd
    ∧ (discW.call (zerosLike (disc_means discW [[0]] [[0]])) [[0]] [[0]]).map
        (fun t => t.1) = discW.compute_reward [[0]] [[0]] :=
  ⟨by decide, (c8_inference_deterministic discW [[0]] [[0]] (by decide)).2.1⟩

/-- C9 counterexample: an agent batch of two transitions together with an
expert batch of one transition has mismatched leading dimensions between the
agent and the expert batch, yet the training step completes successfully
instead of failing with an InvalidInput error. -/
theorem c9_counterexample :
    ([[(0 : ℝ)], [0]] : Mat).length ≠ ([[(0 : ℝ)]] : Mat).length
    ∧ (train_body (1 / 2) id ⟨discW, 0⟩ [[0]] [[0], [0]]
        [[0], [0]] [[0], [0]] [[0]] [[0]]).isSome = true := by
  constructor
  · decide
  · rw [train_body_eq _ _ _ _ _ _ _ _ _ rfl rfl]
    rfl

/-- C9 (amended): a mismatched leading dimension between the state batch and
the action batch of either forward pass makes the training step fail
immediately with no recovery; a mismatched leading dimension between the
agent batch and the expert batch is not detected, and the step completes
whenever each batch is internally consistent. -/
theorem c9_invalid_input_amended (kl_target : ℝ) (opt : Discriminator → Discriminator)
    (st : VAILState) (nR nF aS aA eS eA : Mat) :
    (eS.length ≠ eA.length → train_body kl_target opt st nR nF aS aA eS eA = none)
    ∧ (aS.length ≠ aA.length → train_body kl_target opt st nR nF aS aA eS eA = none)
    ∧ (aS.length = aA.length → eS.length = eA.length →
        (train_body kl_target opt st nR nF aS aA eS eA).isSome = true) := by
  refine ⟨fun hE => ?_, fun hA => ?_, fun hA hE => ?_⟩
  · rw [train_body, Discriminator.call, if_neg hE]
  · by_cases hE : eS.length = eA.length
    · rw [train_body, Discriminator.call, if_pos hE, Discriminator.call, if_neg hA]
    · rw [train_body, Discriminator.call, if_neg hE]
  · rw [train_body_eq kl_target opt st nR nF aS aA eS eA hE hA]
    rfl

/-- C9 witness: a state/action mismatch inside the expert batch aborts the
step, while well-shaped batches complete. -/
theorem c9_witness :
    train_body (1 / 2) id ⟨discW, 0⟩ [[0]] [[0]] [[0]] [[0]] [[0], [0]] [[0]] = none
    ∧ (train_body (1 / 2) id ⟨discW, 0⟩ [[0]] [[0]] [[0]] [[0]] [[0]] [[0]]).isSome
        = true :=
  ⟨(c9_invalid_input_amended (1 / 2) id ⟨discW, 0⟩ [[0]] [[0]] [[0]] [[0]]
      [[0], [0]] [[0]]).1 (by decide),
   (c9_invalid_input_amended (1 / 2) id ⟨discW, 0⟩ [[0]] [[0]] [[0]] [[0]]
      [[0]] [[0]]).2.2 rfl rfl⟩

lemma dual_update_zero (kl_target k : ℝ) (hk : k ≤ kl_target) :
    dual_update kl_target 0 k = 0 := by
  unfold dual_update step_reg_param
  rw [zero_add]
  have hnp : (1e-5 : ℝ) * (k - kl_target) ≤ 0 := by nlinarith
  exact max_eq_left hnp

lemma apply_step_zero (kl_target : ℝ) (st : VAILState) (inp : StepInput)
    (h0 : st.reg_param = 0)
    (hk : kl_loss_of kl_target st.disc inp.agent_states inp.agent_acts
        inp.expert_states inp.expert_acts ≤ kl_target) :
    (apply_step kl_target st inp).reg_param = 0 := by
  unfold apply_step
  cases htb : train_body kl_target inp.opt st inp.noiseR inp.noiseF
      inp.agent_states inp.agent_acts inp.expert_states inp.expert_acts with
  | none => exact h0
  | some r =>
    obtain ⟨st2, out⟩ := r
    have h2 : st2.reg_param = dual_update kl_target st.reg_param
        (kl_loss_of kl_target st.disc inp.agent_states inp.agent_acts
          inp.expert_states inp.expert_acts) :=
      (train_body_some_reg _ _ _ _ _ _ _ _ _ ⟨st2, out⟩ htb).1
    show st2.reg_param = 0
    rw [h2, h0, dual_update_zero kl_target _ hk]

/-- C10: β = 0 is preserved by every training step whose `kl_loss_term` is at
most `kl_target`; starting from β = 0 (the default initial value), β stays 0
after every prefix of a step sequence in which each executed step's
`kl_loss_term` is at most `kl_target`. -/
theorem c10_zero_beta_preserved (kl_target : ℝ) :
    (∀ (st : VAILState) (opt : Discriminator → Discriminator) (nR nF aS aA eS eA : Mat)
        (st2 : VAILState) (out : TrainOutput),
        st.reg_param = 0 →
        train_body kl_target opt st nR nF aS aA eS eA = some (st2, out) →
        kl_loss_of kl_target st.disc aS aA eS eA ≤ kl_target →
        st2.reg_param = 0)
    ∧ ∀ (st : VAILState) (steps : List StepInput), st.reg_param = 0 →
        (∀ (i : ℕ) (hi : i < steps.length),
          kl_loss_of kl_target (run_steps kl_target st (steps.take i)).disc
            steps[i].agent_states steps[i].agent_acts
            steps[i].expert_states steps[i].expert_acts ≤ kl_target) →
        ∀ n : ℕ, (run_steps kl_target st (steps.take n)).reg_param = 0 := by
  constructor
  · intro st opt nR nF aS aA eS eA st2 out h0 htb hk
    have h2 : st2.reg_param = dual_update kl_target st.reg_param
        (kl_loss_of kl_target st.disc aS aA eS eA) :=
      (train_body_some_reg _ _ _ _ _ _ _ _ _ (st2, out) htb).1
    rw [h2, h0, dual_update_zero kl_target _ hk]
  · intro st steps h0 hcond n
    induction n with
    | zero => exact h0
    | succ n ih =>
      by_cases hn : n < steps.length
      · have htake : steps.take (n + 1) = steps.take n ++ [steps[n]] := by
          rw [List.take_succ, List.getElem?_eq_getElem hn]
          rfl
        rw [htake, run_steps, List.foldl_append]
        show (apply_step kl_target (run_steps kl_target st (steps.take n)) steps[n]).reg_param = 0
        exact apply_step_zero kl_target _ _ ih (hcond n hn)
      · have hlen : steps.length ≤ n := Nat.le_of_not_lt hn
        rw [List.take_of_length_le (Nat.le_succ_of_le hlen)]
        rw [List.take_of_length_le hlen] at ih
        exact ih

/-- C10 witness: one concrete at-target step on `discW` from β = 0 keeps
β = 0 (its `kl_loss_term` is 0 ≤ 0.5), and the empty step sequence keeps the
default β = 0. -/
theorem c10_witness :
    (train_body (1 / 2) id ⟨discW, 0⟩ [[0]] [[0]] [[0]] [[0]] [[0]] [[0]]).map
        (fun r => r.1.reg_param) = some 0
    ∧ (run_steps (1 / 2) ⟨discW, 0⟩ (([] : List StepInput).take 0)).reg_param = 0 := by
  constructor
  · cases htb : train_body (1 / 2) id ⟨discW, 0⟩ [[0]] [[0]] [[0]] [[0]] [[0]] [[0]] with
    | none =>
      exact absurd htb (by rw [train_body_eq _ _ _ _ _ _ _ _ _ rfl rfl]; simp)
    | some r =>
      obtain ⟨st2, out⟩ := r
      have hz := (c10_zero_beta_preserved (1 / 2)).1 ⟨discW, 0⟩ id [[0]] [[0]]
        [[0]] [[0]] [[0]] [[0]] st2 out rfl htb
        (by show kl_loss_of (1 / 2) discW [[0]] [[0]] [[0]] [[0]] ≤ 1 / 2
            rw [klW]
            norm_num)
      rw [Option.map_some']
      exact congrArg some hz
  · exact (c10_zero_beta_preserved (1 / 2)).2 ⟨discW, 0⟩ [] rfl
      (fun i hi => absurd hi (Nat.not_lt_zero i)) 0

end
